import Mathlib

/-!
Verification development for the basketballref scraping library.

The Python sources (`basketballref/player.py`, `basketballref/schedule.py`,
`basketballref/roster.py`, `box_score.py`) are shallowly embedded below.
HTML pages, as seen through the PyQuery selections the code performs, are
explicit data: a table row carries its `class` attribute, the text of its
`th` header cell, the `csk` attribute of that cell, and the list of `td`
cells, each with its `data-stat` attribute and text.  Pandas dataframes are
association lists of rows; Python dicts are association lists with
update-in-place semantics (`upsert`); raising code returns `Except String`;
`pd.to_datetime` (an external library routine) is an oracle parameter of
type `String → Option Nat` where `none` models a raised conversion error
and `some d` a successfully parsed timestamp.  Floating point cell values
are idealised as `Rat`.
-/

set_option autoImplicit false

namespace BasketballRef

/-- Value of one dataframe cell: the missing sentinel (`np.nan`/`NaT`), raw
text, a number (idealising Python floats as rationals), a boolean, or a
converted datetime (abstract day number). -/
inductive Val where
  | nan : Val
  | str : String → Val
  | num : Rat → Val
  | bool : Bool → Val
  | date : Nat → Val
deriving DecidableEq, Repr

/-- Shared blank-to-missing substitution `replace = {"": np.nan}` applied
via `replace.get(text, text)` in `player.py` and `box_score.py`. -/
def blankToNan (s : String) : Val :=
  if s = "" then Val.nan else Val.str s

/-- One `td` cell: its `data-stat` attribute and its text. -/
structure Td where
  dataStat : String
  text : String
deriving DecidableEq, Repr

/-- One `tr` body row: its `class` attribute (absent = `none`), the text of
its `th` cell (`row("th").text()`), the `csk` attribute of that cell, and
its `td` cells in document order. -/
structure Tr where
  cls : Option String
  thText : String
  thCsk : Option String
  tds : List Td
deriving DecidableEq, Repr

/-- One `table` element: caption text, class list, the `th` cells of each
`thead` row, and the `tbody` rows. -/
structure HTable where
  caption : String
  classes : List String
  headerRows : List (List Td)
  body : List Tr
deriving DecidableEq, Repr

/-- Association-list lookup, first match wins (Python dict read). -/
def alookup {α : Type} : List (String × α) → String → Option α
  | [], _ => none
  | (k, v) :: rest, key => if k = key then some v else alookup rest key

/-- Association-list update: Python `d[k] = v` keeps the original position
of an existing key, updating its value, and appends a fresh key. -/
def upsert {α : Type} : List (String × α) → String → α → List (String × α)
  | [], key, v => [(key, v)]
  | (k, w) :: rest, key, v =>
    if k = key then (k, v) :: rest else (k, w) :: upsert rest key v

/-- Keys of an association list. -/
def keysOf {α : Type} (d : List (String × α)) : List String :=
  d.map Prod.fst

/-- Union of the dicts' keys in order of first appearance: the column index
pandas builds for a frame created from a list (or dict) of dicts. -/
def unionKeys {α : Type} (rows : List (List (String × α))) : List String :=
  rows.foldl (fun acc d => d.foldl (fun a kv => if kv.1 ∈ a then a else a ++ [kv.1]) acc) []

/-- Insertion of a string into a sorted list (ascending). -/
def insertSorted (s : String) : List String → List String
  | [] => [s]
  | t :: rest => if s ≤ t then s :: t :: rest else t :: insertSorted s rest

/-- Insertion sort on strings, modelling the sorted indexes pandas
produces (`Index.difference`, `groupby` keys). -/
def insSort (l : List String) : List String :=
  l.foldr insertSorted []

/-- Shared dict comprehension over a row's `td` cells,
`{i.attr("data-stat"): replace.get(i.text(), i.text()) for i in row("td").items()}`,
as written in player.py line 58 and box_score.py line 62. -/
def dictOfTds (tds : List Td) : List (String × Val) :=
  tds.foldl (fun d td => upsert d td.dataStat (blankToNan td.text)) []

/-- Python `s.lower()` (structurally, so that concrete instances
reduce). -/
def pyLower (s : String) : String :=
  ⟨s.data.map Char.toLower⟩

/-- Dataframe cell read from a row dict: an absent key is NaN. -/
def cellOf (d : List (String × Val)) (k : String) : Val :=
  (alookup d k).getD Val.nan

/-! ### Python string primitives used by `box_score.py` -/

/-- Check whether the first list is a prefix of the second. -/
def isPre : List Char → List Char → Bool
  | [], _ => true
  | _ :: _, [] => false
  | a :: as, b :: bs => if a = b then isPre as bs else false

/-- First index at or after `i` where `sub` occurs in the haystack. -/
def findSubAux : List Char → List Char → Nat → Option Nat
  | [], sub, i => if sub = [] then some i else none
  | c :: rest, sub, i =>
    if isPre sub (c :: rest) then some i else findSubAux rest sub (i + 1)

/-- Python `s.find(sub)`: index of the first occurrence, `-1` if absent. -/
def pyFind (s sub : String) : Int :=
  match findSubAux s.data sub.data 0 with
  | some i => Int.ofNat i
  | none => -1

/-- Resolution of a Python slice endpoint against a string of length
`len`: negative indexes count from the end, clamping applies. -/
def pyIdx (len : Nat) (i : Int) : Nat :=
  if i < 0 then ((len : Int) + i).toNat else min i.toNat len

/-- Python `s[:i]`. -/
def pyTake (s : String) (i : Int) : String :=
  ⟨s.data.take (pyIdx s.data.length i)⟩

/-- Python `s[i:]`. -/
def pyDrop (s : String) (i : Int) : String :=
  ⟨s.data.drop (pyIdx s.data.length i)⟩

/-- Python `s[a:b]`. -/
def pySlice (s : String) (a b : Int) : String :=
  ⟨(s.data.take (pyIdx s.data.length b)).drop (pyIdx s.data.length a)⟩

/-- Decimal digit accumulation; fails on a non-digit. -/
def digitsAux : List Char → Nat → Option Nat
  | [], acc => some acc
  | c :: rest, acc =>
    if c.isDigit then digitsAux rest (acc * 10 + (c.toNat - 48)) else none

/-- Value of a non-empty all-digit string. -/
def digitsVal : List Char → Option Nat
  | [] => none
  | c :: rest => digitsAux (c :: rest) 0

/-- Python `int(s)` as exercised by `astype(int)`: an optional sign
followed by decimal digits; anything else raises. -/
def pyInt (s : String) : Option Int :=
  match s.data with
  | [] => none
  | c :: rest =>
    if c = '-' then (digitsVal rest).map (fun n => -(n : Int))
    else if c = '+' then (digitsVal rest).map (fun n => (n : Int))
    else (digitsVal (c :: rest)).map (fun n => (n : Int))

/-- Model of the numeric literals `pd.to_numeric` accepts: optional sign,
then digits with at most one decimal point. -/
def parseNum (s : String) : Option Rat :=
  let unsigned : List Char → Option Rat := fun cs =>
    let ip := cs.takeWhile Char.isDigit
    let rest := cs.dropWhile Char.isDigit
    match rest with
    | [] => (digitsVal ip).map (fun n => (n : Rat))
    | '.' :: frac =>
      if frac.all Char.isDigit && !(ip.isEmpty && frac.isEmpty) then
        match digitsAux ip 0, digitsAux frac 0 with
        | some n, some f => some ((n : Rat) + (f : Rat) / ((10 : Rat) ^ frac.length))
        | _, _ => none
      else none
    | _ => none
  match s.data with
  | '-' :: rest => (unsigned rest).map (fun q => -q)
  | cs => unsigned cs

/-- Whether a cell survives `pd.to_numeric` without raising: the missing
sentinel and already-numeric values pass through, text must parse. -/
def canNum : Val → Bool
  | Val.nan => true
  | Val.num _ => true
  | Val.str s => (parseNum s).isSome
  | Val.bool _ => true
  | Val.date _ => true

/-- Conversion of a single convertible cell. -/
def toNumVal : Val → Val
  | Val.nan => Val.nan
  | Val.num q => Val.num q
  | Val.str s =>
    match parseNum s with
    | some q => Val.num q
    | none => Val.str s
  | v => v

/-- Whether a whole column converts cleanly. -/
def colParses (col : List Val) : Bool :=
  col.all canNum

/-- Best-effort column coercion `pd.to_numeric(column, errors="ignore")`:
the column is converted only when every entry parses (the missing sentinel
included); otherwise it is returned unchanged, and no error is raised
(the function is total).  This is the coercion applied column-wise by
player.py line 71, player.py line 127, and roster.py line 55. -/
def toNumericCol (col : List Val) : List Val :=
  if colParses col then col.map toNumVal else col

/-! ## Schedule component (`basketballref/schedule.py`) -/

namespace Schedule

/-- Webpage as seen by `schedule._process_webpage`: `webpage("table")`
selects every table element, and the row loop runs over every `tbody` row
of every selected table. -/
structure SPage where
  tables : List HTable
deriving DecidableEq, Repr

/-- Raw row dict built by the loop body of `_process_webpage` (schedule.py
lines 36-40): the `td` comprehension keeps the raw cell text (this file
has no blank-to-NaN substitution), then the `date` and `uri` entries are
assigned from the row's `th` cell.  Python `None` (an absent `csk`
attribute) is `none`; pandas renders it as NaN. -/
def rowDict (r : Tr) : List (String × Option String) :=
  let base := r.tds.foldl (fun d td => upsert d td.dataStat (some td.text)) []
  upsert (upsert base "date" (some r.thText)) "uri" r.thCsk

/-- Retained raw rows (schedule.py lines 33-47): a row is dropped iff its
dict's `date` entry is exactly `"Playoffs"`; no other filtering happens. -/
def rawRows (page : SPage) : List (List (String × Option String)) :=
  ((page.tables.map HTable.body).flatten).filterMap
    (fun r =>
      let d := rowDict r
      if alookup d "date" = some (some "Playoffs") then none else some d)

/-- Dataframe cell read: an absent key or a stored `None` is NaN. -/
def getCell (d : List (String × Option String)) (k : String) : Val :=
  match alookup d k with
  | some (some s) => Val.str s
  | some none => Val.nan
  | none => Val.nan

/-- Column selection `df[[...]]` of schedule.py line 52 (source names). -/
def sourceColumns : List String :=
  ["date", "visitor_team_name", "home_team_name", "home_pts", "visitor_pts",
   "attendance", "uri"]

/-- One schedule row after the column selection and renaming of
schedule.py lines 52-53. -/
structure SRow where
  date : Val
  away : Val
  home : Val
  home_PTS : Val
  away_PTS : Val
  attendance : Val
  uri : Val
deriving DecidableEq, Repr

/-- Projection of a raw dict onto the seven retained, renamed columns. -/
def mkSRow (d : List (String × Option String)) : SRow :=
  { date := getCell d "date"
    away := getCell d "visitor_team_name"
    home := getCell d "home_team_name"
    home_PTS := getCell d "home_pts"
    away_PTS := getCell d "visitor_pts"
    attendance := getCell d "attendance"
    uri := getCell d "uri" }

/-- Model of `schedule._process_webpage`: extract the retained raw rows,
then perform the `df[[...]]` selection, which raises a `KeyError` when one
of the seven source columns is absent from the frame's column union. -/
def processWebpage (page : SPage) : Except String (List SRow) :=
  let rows := rawRows page
  if sourceColumns.all (fun c => decide (c ∈ unionKeys rows)) then
    Except.ok (rows.map mkSRow)
  else
    Except.error "KeyError"

/-- Month loop of `SeasonSchedule.__init__` (schedule.py lines 78-93): a
month whose page fetch raises `HTTPError` (modelled by `fetch` returning
`none`) is skipped silently; any processing error propagates. -/
def collectMonths (fetch : String → Option SPage) : List String → Except String (List (List SRow))
  | [] => Except.ok []
  | m :: rest =>
    match fetch (pyLower m) with
    | none => collectMonths fetch rest
    | some page =>
      match processWebpage page, collectMonths fetch rest with
      | Except.ok df, Except.ok dfs => Except.ok (df :: dfs)
      | Except.error e, _ => Except.error e
      | _, Except.error e => Except.error e

/-- Conversion of one date cell by `pd.to_datetime` (oracle `toDt`); an
entry the oracle rejects raises. -/
def convertDateRow (toDt : String → Option Nat) (r : SRow) : Except String SRow :=
  match r.date with
  | Val.str s =>
    match toDt s with
    | some d => Except.ok { r with date := Val.date d }
    | none => Except.error "to_datetime"
  | _ => Except.error "to_datetime"

/-- Conversion of the date column, `pd.to_datetime(self.df["date"])`
(schedule.py line 99). -/
def convertDates (toDt : String → Option Nat) : List SRow → Except String (List SRow)
  | [] => Except.ok []
  | r :: rest =>
    match convertDateRow toDt r, convertDates toDt rest with
    | Except.ok r2, Except.ok rs => Except.ok (r2 :: rs)
    | Except.error e, _ => Except.error e
    | _, Except.error e => Except.error e

/-- Model of `SeasonSchedule.__init__` (schedule.py lines 63-102): collect
the per-month frames, concatenate them (`pd.concat` applied to an empty
list raises `ValueError: No objects to concatenate`), then convert the
date column.  The season number enters only the fetch URL and the title
string, both abstracted away here. -/
def seasonSchedule (fetch : String → Option SPage) (toDt : String → Option Nat)
    (months : List String) : Except String (List SRow) :=
  match collectMonths fetch months with
  | Except.error e => Except.error e
  | Except.ok dfs =>
    if dfs.isEmpty then Except.error "No objects to concatenate"
    else convertDates toDt dfs.flatten

end Schedule

/-! ## Box score component (`box_score.py`) -/

namespace Box

/-- Webpage as seen by `box_score._process_webpage`: the `h1` title text
and every table element in document order (this file applies no
`.row_summable` class filter). -/
structure BPage where
  title : String
  tables : List HTable
deriving DecidableEq, Repr

/-- Model of `_title_process` (box_score.py lines 14-18): fixed-delimiter
slicing of the page title, then `pd.to_datetime` on the trailing date
text (oracle `toDt`; a rejected date raises).  Returns
`(home_team, away_team, date)`. -/
def titleProcess (toDt : String → Option Nat) (title : String) :
    Except String (String × String × Nat) :=
  let awayTeam := pyTake title (pyFind title " at ")
  let homeTeam := pySlice title (pyFind title " at " + (" at ".length : Int))
    (pyFind title " Box Score,")
  match toDt (pyDrop title (pyFind title "Box Score," + ("Box Score, ".length : Int))) with
  | some d => Except.ok (homeTeam, awayTeam, d)
  | none => Except.error "to_datetime"

/-- Row dict of one body row (box_score.py line 62). -/
def rowData (r : Tr) : List (String × Val) :=
  dictOfTds r.tds

/-- Header mapping of one table (box_score.py lines 44-45):
`data-stat → text` over the `th` cells of the second `thead` row. -/
def headerColumns (t : HTable) : List (String × String) :=
  ((t.headerRows.get? 1).getD []).foldl (fun d td => upsert d td.dataStat td.text) []

/-- Row collection of one table (box_score.py lines 50-65): a dict keyed
by the row's `th` text (the player name), skipping rows whose class is
`"thead"`; a repeated player name overwrites the stored data in place. -/
def tableRows (body : List Tr) : List (String × List (String × Val)) :=
  body.foldl
    (fun rows r =>
      if r.cls = some "thead" then rows else upsert rows r.thText (rowData r)) []

/-- Per-table dataframe: rows keyed by player name, each carrying its dict
of cells, plus the column index. -/
structure TDF where
  rows : List (String × List (String × Val))
  cols : List String
deriving DecidableEq, Repr

/-- Column renaming through the header mapping (`df.rename(columns=...)`,
box_score.py line 70): a tag absent from the mapping keeps its name. -/
def renameKey (columns : List (String × String)) (k : String) : String :=
  (alookup columns k).getD k

/-- Renaming applied to the column index and the row dicts. -/
def renameTDF (columns : List (String × String)) (df : TDF) : TDF :=
  { rows := df.rows.map (fun pd => (pd.1, pd.2.map (fun kv => (renameKey columns kv.1, kv.2))))
    cols := df.cols.map (renameKey columns) }

/-- Null test of the `reason` cell (`df.reason.isnull()`): an absent key
or NaN is null. -/
def reasonIsNull (d : List (String × Val)) : Bool :=
  match alookup d "reason" with
  | none => true
  | some Val.nan => true
  | some _ => false

/-- Did-not-play filter (box_score.py lines 71-72): keep rows with a null
`reason` cell, then drop the `reason` column. -/
def dropReason (df : TDF) : TDF :=
  { rows := (df.rows.filter (fun pd => reasonIsNull pd.2)).map
      (fun pd => (pd.1, pd.2.filter (fun kv => kv.1 != "reason")))
    cols := df.cols.filter (fun c => c != "reason") }

/-- Processing of one table (box_score.py lines 35-75): collect the rows,
form the frame (columns = union of the dicts' keys), rename columns, and
apply the did-not-play filter when a `reason` column exists. -/
def processTable (t : HTable) : TDF :=
  let columns := headerColumns t
  let rs := tableRows t.body
  let df0 : TDF := { rows := rs, cols := unionKeys (rs.map Prod.snd) }
  let df1 := renameTDF columns df0
  if df1.cols.contains "reason" then dropReason df1 else df1

/-- Python list indexing `tables[i]`: raises `IndexError` out of range. -/
def listIdx (tables : List TDF) (i : Nat) : Except String TDF :=
  match tables.get? i with
  | some t => Except.ok t
  | none => Except.error "IndexError: list index out of range"

/-- Column drop `df.drop(columns=[c])`: raises `KeyError` when absent. -/
def dropCol (c : String) (df : TDF) : Except String TDF :=
  if df.cols.contains c then
    Except.ok
      { rows := df.rows.map (fun pd => (pd.1, pd.2.filter (fun kv => kv.1 != c)))
        cols := df.cols.filter (fun x => x != c) }
  else Except.error "KeyError"

/-- Model of `pd.concat([a, b], axis=1)` (box_score.py lines 79-80): outer
join on the player index (a's rows first, then b's new rows), columns
appended; cells absent from a side are NaN through the dict default. -/
def concatCols (a b : TDF) : TDF :=
  let aIdx := a.rows.map Prod.fst
  let idx := aIdx ++ (b.rows.map Prod.fst).filter (fun p => decide (p ∉ aIdx))
  { rows := idx.map (fun p => (p, ((alookup a.rows p).getD []) ++ ((alookup b.rows p).getD [])))
    cols := a.cols ++ b.cols }

/-- Column assignment `df[name] = len(df)*[v]` (box_score.py lines 84-85,
137). -/
def addColumn (df : TDF) (name : String) (v : Val) : TDF :=
  { rows := df.rows.map (fun pd => (pd.1, upsert pd.2 name v))
    cols := if df.cols.contains name then df.cols else df.cols ++ [name] }

/-- Model of `pd.concat([a, b], axis=0)` (box_score.py line 86): rows
appended, columns unioned in order of first appearance. -/
def concatRows (a b : TDF) : TDF :=
  { rows := a.rows ++ b.rows
    cols := a.cols ++ b.cols.filter (fun c => decide (c ∉ a.cols)) }

/-- Model of `box_score._process_webpage` (box_score.py lines 20-89):
title parse, per-table processing of every table on the page, then the
fixed-position four-table merge `tables[0] .. tables[3]` with the `MP`
column dropped from each advanced table.  Returns
`(title, home_team, away_team, date, df)`. -/
def processWebpage (toDt : String → Option Nat) (page : BPage) :
    Except String (String × String × String × Nat × TDF) :=
  match titleProcess toDt page.title with
  | Except.error e => Except.error e
  | Except.ok (homeTeam, awayTeam, date) =>
    let tables := page.tables.map processTable
    match listIdx tables 0, listIdx tables 1, listIdx tables 2, listIdx tables 3 with
    | Except.ok t0, Except.ok t1, Except.ok t2, Except.ok t3 =>
      (match dropCol "MP" t1, dropCol "MP" t3 with
       | Except.ok t1m, Except.ok t3m =>
         let awayDf := addColumn (concatCols t0 t1m) "Team" (Val.str awayTeam)
         let homeDf := addColumn (concatCols t2 t3m) "Team" (Val.str homeTeam)
         Except.ok (page.title, homeTeam, awayTeam, date, concatRows awayDf homeDf)
       | Except.error e, _ => Except.error e
       | _, Except.error e => Except.error e)
    | Except.error e, _, _, _ => Except.error e
    | _, Except.error e, _, _ => Except.error e
    | _, _, Except.error e, _ => Except.error e
    | _, _, _, Except.error e => Except.error e

/-- Column read over the whole frame (missing cells are NaN). -/
def getCol (df : TDF) (c : String) : List Val :=
  df.rows.map (fun pd => cellOf pd.2 c)

/-- Forced conversion of one minutes cell (box_score.py lines 103-105):
split at the first colon, parse both sides with `int`, and combine as
`minutes + seconds/60`. -/
def convertMP (s : String) : Except String Rat :=
  let i := pyFind s ":"
  match pyInt (pyTake s i), pyInt (pyDrop s (i + 1)) with
  | some m, some sec => Except.ok ((m : Rat) + (sec : Rat) / 60)
  | _, _ => Except.error "ValueError: invalid literal for int"

/-- Forced minutes conversion over the rows: a non-string minutes cell
(e.g. NaN) has no `.find` and raises; a malformed string raises in
`int`. -/
def seqMP : List (String × List (String × Val)) → Except String (List (String × List (String × Val)))
  | [] => Except.ok []
  | (p, d) :: rest =>
    match (alookup d "MP").getD Val.nan with
    | Val.str s =>
      match convertMP s, seqMP rest with
      | Except.ok q, Except.ok rs => Except.ok ((p, upsert d "MP" (Val.num q)) :: rs)
      | Except.error e, _ => Except.error e
      | _, Except.error e => Except.error e
    | _ => Except.error "AttributeError"

/-- Model of `box_score._type_convert` (box_score.py lines 91-107): every
column except `MP` is coerced best-effort with `pd.to_numeric(errors="ignore")`
(a column that does not parse cleanly is left unchanged); the `MP` column
is then converted by force, raising on absent or malformed cells. -/
def typeConvert (df : TDF) : Except String TDF :=
  let conv : String → Bool := fun c => c != "MP" && colParses (getCol df c)
  let rows1 := df.rows.map
    (fun pd => (pd.1, pd.2.map (fun kv => if conv kv.1 then (kv.1, toNumVal kv.2) else kv)))
  if df.cols.contains "MP" then
    match seqMP rows1 with
    | Except.ok rows2 => Except.ok { rows := rows2, cols := df.cols }
    | Except.error e => Except.error e
  else Except.error "AttributeError"

/-- Group keys of `df.groupby("Team")`: the distinct `Team` values,
sorted (pandas sorts group keys by default). -/
def groupTeams (df : TDF) : List String :=
  insSort (df.rows.foldl
    (fun acc pd =>
      match cellOf pd.2 "Team" with
      | Val.str t => if t ∈ acc then acc else acc ++ [t]
      | _ => acc) [])

/-- Sum of the `PTS` column over one team's rows, skipping non-numeric
cells as pandas `sum` skips missing values. -/
def sumPTS (df : TDF) (team : String) : Rat :=
  df.rows.foldl
    (fun acc pd =>
      if cellOf pd.2 "Team" = Val.str team then
        match cellOf pd.2 "PTS" with
        | Val.num q => acc + q
        | _ => acc
      else acc) 0

/-- Final score `df.groupby("Team")["PTS"].sum()` (box_score.py line 140);
a missing `Team` or `PTS` column raises `KeyError`. -/
def finalScore (df : TDF) : Except String (List (String × Rat)) :=
  if df.cols.contains "PTS" && df.cols.contains "Team" then
    Except.ok ((groupTeams df).map (fun t => (t, sumPTS df t)))
  else Except.error "KeyError"

/-- Result bundle stored on a `BoxScore` object. -/
structure BoxResult where
  title : String
  home_team : String
  away_team : String
  date : Nat
  df : TDF
  final_score : List (String × Rat)
deriving DecidableEq, Repr

/-- Model of `BoxScore.__init__` (box_score.py lines 117-140): process
the page, convert types, attach the date column, compute the final
score. -/
def boxScore (toDt : String → Option Nat) (page : BPage) : Except String BoxResult :=
  match processWebpage toDt page with
  | Except.error e => Except.error e
  | Except.ok (title, homeTeam, awayTeam, date, df) =>
    match typeConvert df with
    | Except.error e => Except.error e
    | Except.ok df1 =>
      let df2 := addColumn df1 "date" (Val.date date)
      match finalScore df2 with
      | Except.error e => Except.error e
      | Except.ok fs =>
        Except.ok
          { title := title, home_team := homeTeam, away_team := awayTeam,
            date := date, df := df2, final_score := fs }

end Box

/-! ## Player component (`basketballref/player.py`) -/

namespace Player

/-- Row dict of one gamelog body row (player.py line 58). -/
def rowData (r : Tr) : List (String × Val) :=
  dictOfTds r.tds

/-- Row collection of one gamelog table (player.py lines 50-59): rows are
accumulated in a list, skipping rows whose class is `"thead"`. -/
def tableRows (body : List Tr) : List (List (String × Val)) :=
  body.foldl
    (fun rows r =>
      if r.cls = some "thead" then rows else rows ++ [rowData r]) []

/-- Gamelog dataframe as it stands at the merge step of `Player.__init__`
(player.py lines 182-188): a date-indexed frame with a column index and a
cell lookup (NaN outside the stored area). -/
structure PDF where
  idx : List String
  cols : List String
  cell : String → String → Val

/-- Column set `to_merge[1].columns.difference(to_merge[0].columns)`
(player.py line 187): the advanced columns absent from the basic frame,
deduplicated and sorted as `Index.difference` returns them. -/
def colsToAdd (adv basic : PDF) : List String :=
  insSort ((adv.cols.filter (fun c => decide (c ∉ basic.cols))).dedup)

/-- Column sub-selection `to_merge[1][columns_to_add]`. -/
def selectCols (df : PDF) (cs : List String) : PDF :=
  { idx := df.idx, cols := cs, cell := df.cell }

/-- Model of `pd.concat([a, b], axis=1)` on date-indexed frames: outer
join of the indexes (a's rows first, then b's new rows), columns
appended; a cell outside a frame's own index is NaN. -/
def concatAxis1 (a b : PDF) : PDF :=
  { idx := a.idx ++ b.idx.filter (fun r => decide (r ∉ a.idx))
    cols := a.cols ++ b.cols
    cell := fun r c =>
      if c ∈ a.cols then (if r ∈ a.idx then a.cell r c else Val.nan)
      else if c ∈ b.cols ∧ r ∈ b.idx then b.cell r c
      else Val.nan }

/-- Merge step of `Player.__init__` (player.py lines 186-188):
append exactly the advanced columns absent from the basic frame. -/
def mergeAdvanced (basic adv : PDF) : PDF :=
  concatAxis1 basic (selectCols adv (colsToAdd adv basic))

/-- Dataframe equality on the meaningful domain: same index, same column
index, same cells at every stored position. -/
def dfEq (a b : PDF) : Prop :=
  a.idx = b.idx ∧ a.cols = b.cols ∧
    ∀ r ∈ a.idx, ∀ c ∈ a.cols, a.cell r c = b.cell r c

end Player

/-! ## Concrete fixtures used to instantiate the theorems -/

/-- Last body row of non-`thead` class carrying the given player name;
the row whose data a repeated name ends up holding. -/
def lastNonThead (p : String) : List Tr → Option Tr
  | [] => none
  | r :: rest =>
    match lastNonThead p rest with
    | some r2 => some r2
    | none => if r.cls ≠ some "thead" ∧ r.thText = p then some r else none

/-- Month page with one ordinary game row and one `Playoffs` divider. -/
def octPage : Schedule.SPage :=
  ⟨[⟨"Schedule", [], [], [
    ⟨none, "Tue, Oct 16, 2018", some "201810160BOS", [
      ⟨"visitor_team_name", "Philadelphia 76ers"⟩,
      ⟨"home_team_name", "Boston Celtics"⟩,
      ⟨"home_pts", "105"⟩,
      ⟨"visitor_pts", "87"⟩,
      ⟨"attendance", "18624"⟩]⟩,
    ⟨some "thead", "Playoffs", none, []⟩]⟩]⟩

/-- Schedule fetch oracle: October present, every other month 404s. -/
def schedFetch : String → Option Schedule.SPage :=
  fun m => if m = "october" then some octPage else none

/-- Date oracle accepting exactly the fixture's date string. -/
def schedToDt : String → Option Nat :=
  fun s => if s = "Tue, Oct 16, 2018" then some 737348 else none

/-- Expected processed row of `octPage`. -/
def octRow : Schedule.SRow :=
  ⟨Val.str "Tue, Oct 16, 2018", Val.str "Philadelphia 76ers", Val.str "Boston Celtics",
   Val.str "105", Val.str "87", Val.str "18624", Val.str "201810160BOS"⟩

/-- Expected season row after date conversion. -/
def octRowConverted : Schedule.SRow :=
  { octRow with date := Val.date 737348 }

/-- Month page whose game row has an empty attendance cell. -/
def blankCellPage : Schedule.SPage :=
  ⟨[⟨"Schedule", [], [], [
    ⟨none, "Fri, Nov 2, 2018", some "201811020CHI", [
      ⟨"visitor_team_name", "Denver Nuggets"⟩,
      ⟨"home_team_name", "Chicago Bulls"⟩,
      ⟨"home_pts", "107"⟩,
      ⟨"visitor_pts", "108"⟩,
      ⟨"attendance", ""⟩]⟩]⟩]⟩

/-- Expected processed row of `blankCellPage`: the empty attendance cell
comes through as the empty string, not as NaN. -/
def blankCellRow : Schedule.SRow :=
  ⟨Val.str "Fri, Nov 2, 2018", Val.str "Denver Nuggets", Val.str "Chicago Bulls",
   Val.str "107", Val.str "108", Val.str "", Val.str "201811020CHI"⟩

/-- Month page whose table body starts with a class-`thead` sub-heading
row that is not a `Playoffs` divider. -/
def theadRowPage : Schedule.SPage :=
  ⟨[⟨"Schedule", [], [], [
    ⟨some "thead", "Subheading", none, []⟩,
    ⟨none, "Sat, Nov 3, 2018", some "201811030NYK", [
      ⟨"visitor_team_name", "Orlando Magic"⟩,
      ⟨"home_team_name", "New York Knicks"⟩,
      ⟨"home_pts", "115"⟩,
      ⟨"visitor_pts", "89"⟩,
      ⟨"attendance", "19812"⟩]⟩]⟩]⟩

/-- Row the class-`thead` sub-heading of `theadRowPage` turns into. -/
def theadSubRow : Schedule.SRow :=
  ⟨Val.str "Subheading", Val.nan, Val.nan, Val.nan, Val.nan, Val.nan, Val.nan⟩

/-- Row of the ordinary game of `theadRowPage`. -/
def theadNormRow : Schedule.SRow :=
  ⟨Val.str "Sat, Nov 3, 2018", Val.str "Orlando Magic", Val.str "New York Knicks",
   Val.str "115", Val.str "89", Val.str "19812", Val.str "201811030NYK"⟩

/-- Date oracle for the box-score fixtures. -/
def boxToDt : String → Option Nat :=
  fun s => if s = "January 1, 2018" then some 736695 else none

/-- Second header row shared by the basic box-score fixture tables. -/
def basicHeader : List Td :=
  [⟨"player", "Starters"⟩, ⟨"mp", "MP"⟩, ⟨"pts", "PTS"⟩]

/-- Second header row shared by the advanced box-score fixture tables. -/
def advHeader : List Td :=
  [⟨"player", "Starters"⟩, ⟨"mp", "MP"⟩, ⟨"ts_pct", "TS%"⟩]

/-- Away basic table: three rostered players, one marked did-not-play,
plus a class-`thead` separator row. -/
def awayBasicT : HTable :=
  ⟨"Away Basic", ["sortable"], [[], basicHeader], [
    ⟨none, "Alpha One", none, [⟨"mp", "30:00"⟩, ⟨"pts", "10"⟩]⟩,
    ⟨some "thead", "Reserves", none, []⟩,
    ⟨none, "Alpha Two", none, [⟨"mp", "20:30"⟩, ⟨"pts", "20"⟩]⟩,
    ⟨none, "Alpha Three", none, [⟨"reason", "Did Not Play"⟩]⟩]⟩

/-- Away advanced table for the same roster. -/
def awayAdvT : HTable :=
  ⟨"Away Advanced", ["sortable"], [[], advHeader], [
    ⟨none, "Alpha One", none, [⟨"mp", "30:00"⟩, ⟨"ts_pct", "0.55"⟩]⟩,
    ⟨none, "Alpha Two", none, [⟨"mp", "20:30"⟩, ⟨"ts_pct", "0.60"⟩]⟩,
    ⟨none, "Alpha Three", none, [⟨"reason", "Did Not Play"⟩]⟩]⟩

/-- Home basic table: three rostered players, one marked did-not-play. -/
def homeBasicT : HTable :=
  ⟨"Home Basic", ["sortable"], [[], basicHeader], [
    ⟨none, "Beta One", none, [⟨"mp", "28:00"⟩, ⟨"pts", "5"⟩]⟩,
    ⟨none, "Beta Two", none, [⟨"mp", "18:30"⟩, ⟨"pts", "7"⟩]⟩,
    ⟨none, "Beta Three", none, [⟨"reason", "Did Not Play"⟩]⟩]⟩

/-- Home advanced table for the same roster. -/
def homeAdvT : HTable :=
  ⟨"Home Advanced", ["sortable"], [[], advHeader], [
    ⟨none, "Beta One", none, [⟨"mp", "28:00"⟩, ⟨"ts_pct", "0.50"⟩]⟩,
    ⟨none, "Beta Two", none, [⟨"mp", "18:30"⟩, ⟨"ts_pct", "0.65"⟩]⟩,
    ⟨none, "Beta Three", none, [⟨"reason", "Did Not Play"⟩]⟩]⟩

/-- Mock box-score page: four tables, away basic / away advanced / home
basic / home advanced, rosters of three with one did-not-play each. -/
def mockBoxPage : Box.BPage :=
  ⟨"AWY at HOM Box Score, January 1, 2018",
   [awayBasicT, awayAdvT, homeBasicT, homeAdvT]⟩

/-- Box-score page carrying five qualifying tables. -/
def fiveTablePage : Box.BPage :=
  ⟨"AWY at HOM Box Score, January 1, 2018",
   [awayBasicT, awayAdvT, homeBasicT, homeAdvT, awayBasicT]⟩

/-- Box-score page with no tables at all. -/
def emptyBoxPage : Box.BPage :=
  ⟨"AWY at HOM Box Score, January 1, 2018", []⟩

/-- Frame whose minutes column holds a malformed cell. -/
def dfMpBad : Box.TDF :=
  ⟨[("Player One", [("MP", Val.str "Did Not Play")])], ["MP"]⟩

/-- Frame with a well-formed minutes cell and a textual team column. -/
def dfCoerceW : Box.TDF :=
  ⟨[("P1", [("MP", Val.str "10:00"), ("Team", Val.str "AWY")])], ["MP", "Team"]⟩

/-- Expected frame after type conversion of `dfCoerceW`. -/
def dfCoerceWOut : Box.TDF :=
  ⟨[("P1", [("MP", Val.num 10), ("Team", Val.str "AWY")])], ["MP", "Team"]⟩

/-- Gamelog row with an empty points cell. -/
def blankTdRow : Tr :=
  ⟨none, "X", none, [⟨"pts", ""⟩]⟩

/-- Basic frame with one game row (counterexample fixture). -/
def pdfB0 : Player.PDF :=
  ⟨["2018-10-16"], ["PTS"], fun _ _ => Val.num 25⟩

/-- Advanced frame whose single column already exists in `pdfB0` but whose
game row does not. -/
def pdfA0 : Player.PDF :=
  ⟨["2018-10-18"], ["PTS"], fun _ _ => Val.num 30⟩

/-- Basic frame for the merge witness. -/
def pdfBW : Player.PDF :=
  ⟨["d1", "d2"], ["PTS", "AST"], fun _ _ => Val.num 1⟩

/-- Advanced frame sharing no columns with `pdfBW`. -/
def pdfAW : Player.PDF :=
  ⟨["d1", "d2"], ["TSP", "USG"], fun _ _ => Val.num 2⟩

/-- Advanced frame fully overlapped by `pdfBW` in columns and index. -/
def pdfAF : Player.PDF :=
  ⟨["d1"], ["AST"], fun _ _ => Val.num 3⟩

/-! ## Helper lemmas -/

theorem alookup_upsert_self {α : Type} (d : List (String × α)) (k : String) (v : α) :
    alookup (upsert d k v) k = some v := by
  induction d with
  | nil => simp [upsert, alookup]
  | cons hd tl ih =>
    obtain ⟨k0, w⟩ := hd
    by_cases h : k0 = k
    · simp [upsert, h, alookup]
    · simp [upsert, h, alookup, ih]

theorem alookup_upsert_ne {α : Type} (d : List (String × α)) (k key : String) (v : α)
    (h : k ≠ key) : alookup (upsert d k v) key = alookup d key := by
  induction d with
  | nil => simp [upsert, alookup, h]
  | cons hd tl ih =>
    obtain ⟨k0, w⟩ := hd
    by_cases h0 : k0 = k
    · subst h0
      simp [upsert, alookup, h]
    · simp [upsert, h0, alookup, ih]

theorem keysOf_upsert {α : Type} (d : List (String × α)) (k : String) (v : α) :
    keysOf (upsert d k v) = if k ∈ keysOf d then keysOf d else keysOf d ++ [k] := by
  induction d with
  | nil => simp [upsert, keysOf]
  | cons hd tl ih =>
    obtain ⟨k0, w⟩ := hd
    by_cases h : k0 = k
    · subst h
      simp [upsert, keysOf]
    · have hne : ¬ k = k0 := fun hk => h hk.symm
      simp only [keysOf, List.map_cons] at ih ⊢
      rw [upsert, if_neg h, List.map_cons, ih]
      by_cases hm : k ∈ List.map Prod.fst tl <;>
        simp [hm, hne]

theorem nodup_keysOf_upsert {α : Type} (d : List (String × α)) (k : String) (v : α)
    (h : (keysOf d).Nodup) : (keysOf (upsert d k v)).Nodup := by
  rw [keysOf_upsert]
  by_cases hm : k ∈ keysOf d
  · simpa [hm] using h
  · simp only [hm, if_false]
    exact List.Nodup.append h (List.nodup_singleton k) (by simpa using hm)

theorem alookup_map_value {α β : Type} (d : List (String × α)) (f : String → α → β)
    (k : String) :
    alookup (d.map (fun kv => (kv.1, f kv.1 kv.2))) k = (alookup d k).map (f k) := by
  induction d with
  | nil => simp [alookup]
  | cons hd tl ih =>
    obtain ⟨k0, w⟩ := hd
    by_cases h : k0 = k
    · subst h
      simp [alookup]
    · simp [alookup, h, ih]

theorem insertSorted_length (s : String) (l : List String) :
    (insertSorted s l).length = l.length + 1 := by
  induction l with
  | nil => rfl
  | cons t rest ih =>
    by_cases h : s ≤ t <;> simp [insertSorted, h, ih]

theorem insSort_length (l : List String) : (insSort l).length = l.length := by
  induction l with
  | nil => rfl
  | cons t rest ih =>
    simp only [insSort, List.foldr_cons, insertSorted_length, List.length_cons]
    simp only [insSort] at ih
    omega

theorem alookup_dictOfTds_aux (tds : List Td) (k : String) (v : Val) :
    ∀ acc : List (String × Val),
      alookup (tds.foldl (fun d td => upsert d td.dataStat (blankToNan td.text)) acc) k = some v →
      (∃ td ∈ tds, td.dataStat = k ∧ v = blankToNan td.text) ∨ alookup acc k = some v := by
  induction tds with
  | nil => intro acc h; exact Or.inr h
  | cons td rest ih =>
    intro acc h
    rw [List.foldl_cons] at h
    rcases ih (upsert acc td.dataStat (blankToNan td.text)) h with hmem | hacc
    · rcases hmem with ⟨td2, htd2, hk, hv⟩
      exact Or.inl ⟨td2, List.mem_cons_of_mem td htd2, hk, hv⟩
    · by_cases hk : td.dataStat = k
      · subst hk
        rw [alookup_upsert_self] at hacc
        exact Or.inl ⟨td, List.mem_cons_self td rest, rfl, (Option.some.injEq _ _ ▸ hacc).symm⟩
      · rw [alookup_upsert_ne _ _ _ _ hk] at hacc
        exact Or.inr hacc

theorem alookup_dictOfTds (tds : List Td) (k : String) (v : Val)
    (h : alookup (dictOfTds tds) k = some v) :
    ∃ td ∈ tds, td.dataStat = k ∧ v = blankToNan td.text := by
  rcases alookup_dictOfTds_aux tds k v [] h with hmem | hacc
  · exact hmem
  · simp [alookup] at hacc

theorem getCell_eq_str {d : List (String × Option String)} {k s : String}
    (h : Schedule.getCell d k = Val.str s) : alookup d k = some (some s) := by
  rcases ha : alookup d k with _ | ov
  · simp [Schedule.getCell, ha] at h
  · rcases ov with _ | t
    · simp [Schedule.getCell, ha] at h
    · simp only [Schedule.getCell, ha, Val.str.injEq] at h
      subst h
      rfl

theorem rawRows_no_playoffs (page : Schedule.SPage) :
    ∀ d ∈ Schedule.rawRows page, alookup d "date" ≠ some (some "Playoffs") := by
  intro d hd
  simp only [Schedule.rawRows] at hd
  rcases List.mem_filterMap.mp hd with ⟨r, _, hf⟩
  by_cases hc : alookup (Schedule.rowDict r) "date" = some (some "Playoffs")
  · simp [hc] at hf
  · simp only [hc, if_false] at hf
    rw [Option.some.injEq] at hf
    rw [← hf]
    exact hc

theorem convertDateRow_ok_date (toDt : String → Option Nat) (r r2 : Schedule.SRow)
    (h : Schedule.convertDateRow toDt r = Except.ok r2) : ∃ d, r2.date = Val.date d := by
  simp only [Schedule.convertDateRow] at h
  split at h
  · split at h
    · rw [Except.ok.injEq] at h
      subst h
      rename_i d _
      exact ⟨d, rfl⟩
    · cases h
  · cases h

theorem convertDates_ok_dates (toDt : String → Option Nat) :
    ∀ rows out : List Schedule.SRow,
      Schedule.convertDates toDt rows = Except.ok out →
      ∀ r ∈ out, ∃ d, r.date = Val.date d := by
  intro rows
  induction rows with
  | nil =>
    intro out h r hr
    simp only [Schedule.convertDates, Except.ok.injEq] at h
    subst h
    cases hr
  | cons r0 rest ih =>
    intro out h r hr
    simp only [Schedule.convertDates] at h
    split at h
    · rw [Except.ok.injEq] at h
      subst h
      rename_i r2 rs hrow hrest
      rcases List.mem_cons.mp hr with hr0 | hrest2
      · subst hr0
        exact convertDateRow_ok_date toDt r0 r hrow
      · exact ih rs hrest r hrest2
    · cases h
    · cases h

/-! ## Claim C1 -/

/-- C1 (corrected): for `SeasonSchedule` with an empty month sequence, or
with a season in which every month page is missing, the collected list of
per-month frames is empty and `pd.concat` raises
`ValueError: No objects to concatenate`; the constructor does *not*
return an empty table. -/
theorem schedule_empty_months_error
    (fetch : String → Option Schedule.SPage) (toDt : String → Option Nat)
    (months : List String)
    (h : months = [] ∨ ∀ m ∈ months, fetch (pyLower m) = none) :
    Schedule.seasonSchedule fetch toDt months = Except.error "No objects to concatenate" := by
  have hcollect : ∀ ms : List String, (∀ m ∈ ms, fetch (pyLower m) = none) →
      Schedule.collectMonths fetch ms = Except.ok [] := by
    intro ms
    induction ms with
    | nil => intro _; rfl
    | cons m rest ih =>
      intro hall
      have hm : fetch (pyLower m) = none := hall m (List.mem_cons_self m rest)
      simp only [Schedule.collectMonths, hm]
      exact ih (fun m2 hm2 => hall m2 (List.mem_cons_of_mem m hm2))
  rcases h with h | h
  · subst h; rfl
  · have hc := hcollect months h
    simp only [Schedule.seasonSchedule, hc]
    rfl

/-- C1 witness: a two-month season in which both pages 404 raises the
concatenation error. -/
theorem schedule_empty_months_error_witness :
    Schedule.seasonSchedule (fun _ => none) (fun _ => none) ["october", "november"] =
      Except.error "No objects to concatenate" :=
  schedule_empty_months_error (fun _ => none) (fun _ => none) ["october", "november"]
    (Or.inr fun _ _ => rfl)

/-- C1 counterexample: `aggregate` over the empty month sequence raises
the concatenation error instead of returning an empty, well-typed
table. -/
theorem schedule_empty_months_counterexample :
    Schedule.seasonSchedule (fun _ => none) (fun _ => none) [] =
      Except.error "No objects to concatenate" := rfl

/-! ## Claim C7 -/

/-- C7 (confirmed): every month-page row whose date field is exactly
`"Playoffs"` is excluded by `_process_webpage`, and whenever
`SeasonSchedule` construction succeeds every retained row's date field
has been converted to a valid date (the `pd.to_datetime` oracle accepted
it). -/
theorem schedule_playoffs_excluded_dates_valid :
    (∀ (page : Schedule.SPage) (df : List Schedule.SRow),
        Schedule.processWebpage page = Except.ok df →
        ∀ r ∈ df, r.date ≠ Val.str "Playoffs") ∧
    (∀ (fetch : String → Option Schedule.SPage) (toDt : String → Option Nat)
        (months : List String) (df : List Schedule.SRow),
        Schedule.seasonSchedule fetch toDt months = Except.ok df →
        ∀ r ∈ df, r.date ≠ Val.str "Playoffs" ∧ ∃ d, r.date = Val.date d) := by
  constructor
  · intro page df h r hr hdate
    simp only [Schedule.processWebpage] at h
    split at h
    · rw [Except.ok.injEq] at h
      subst h
      rcases List.mem_map.mp hr with ⟨d, hd, hrd⟩
      rw [← hrd] at hdate
      simp only [Schedule.mkSRow] at hdate
      exact rawRows_no_playoffs page d hd (getCell_eq_str hdate)
    · cases h
  · intro fetch toDt months df h r hr
    simp only [Schedule.seasonSchedule] at h
    split at h
    · cases h
    · split at h
      · cases h
      · have hd := convertDates_ok_dates toDt _ df h r hr
        refine ⟨?_, hd⟩
        rcases hd with ⟨d, hdd⟩
        rw [hdd]
        intro hx
        cases hx

/-- C7 witness: the October fixture page processes with the `Playoffs`
divider excluded, and the season table's date converts. -/
theorem schedule_playoffs_excluded_dates_valid_witness :
    (∀ r ∈ [octRow], r.date ≠ Val.str "Playoffs") ∧
    (∀ r ∈ [octRowConverted], r.date ≠ Val.str "Playoffs" ∧ ∃ d, r.date = Val.date d) :=
  ⟨schedule_playoffs_excluded_dates_valid.1 octPage [octRow] rfl,
   schedule_playoffs_excluded_dates_valid.2 schedFetch schedToDt ["october"]
     [octRowConverted] rfl⟩

/-! ## Claim C2 -/

/-- C2 (corrected): in the player and box-score row extraction, every
stored cell is the blank-to-NaN image of a source cell: an empty source
cell can only appear as NaN, never as the empty string.  The schedule
extraction does not perform the substitution (see the counterexample). -/
theorem row_extraction_blank_to_nan (r : Tr) (k : String) (v : Val) :
    (alookup (Box.rowData r) k = some v →
      ∃ td ∈ r.tds, td.dataStat = k ∧ v = blankToNan td.text) ∧
    (alookup (Player.rowData r) k = some v →
      ∃ td ∈ r.tds, td.dataStat = k ∧ v = blankToNan td.text) :=
  ⟨fun h => alookup_dictOfTds r.tds k v h, fun h => alookup_dictOfTds r.tds k v h⟩

/-- C2 witness: the empty points cell of `blankTdRow` is stored as NaN. -/
theorem row_extraction_blank_to_nan_witness :
    ∃ td ∈ blankTdRow.tds, td.dataStat = "pts" ∧ Val.nan = blankToNan td.text :=
  (row_extraction_blank_to_nan blankTdRow "pts" Val.nan).1 rfl

/-- C2 counterexample: the schedule extraction stores the empty
attendance cell of `blankCellPage` as the empty string, not as NaN. -/
theorem schedule_blank_cell_counterexample :
    Schedule.processWebpage blankCellPage = Except.ok [blankCellRow] ∧
    blankCellRow.attendance = Val.str "" :=
  ⟨rfl, rfl⟩

/-! ## Claim C9 -/

theorem foldl_skip_thead {α : Type} (f : α → Tr → α) :
    ∀ (body : List Tr) (acc : α),
      body.foldl (fun a r => if r.cls = some "thead" then a else f a r) acc =
        (body.filter (fun r => !(r.cls == some "thead"))).foldl
          (fun a r => if r.cls = some "thead" then a else f a r) acc := by
  intro body
  induction body with
  | nil => intro acc; rfl
  | cons r rest ih =>
    intro acc
    by_cases hc : r.cls = some "thead"
    · simp [List.foldl_cons, List.filter_cons, hc, ih]
    · simp [List.foldl_cons, List.filter_cons, hc, ih]

/-- C9 (amended): the player and box-score row extraction ignore every
body row whose class is `"thead"` (extracting a body is the same as
extracting the body with those rows removed).  The schedule extraction
has no such check (see the counterexample). -/
theorem extraction_skips_thead_rows (body : List Tr) :
    Box.tableRows body =
      Box.tableRows (body.filter (fun r => !(r.cls == some "thead"))) ∧
    Player.tableRows body =
      Player.tableRows (body.filter (fun r => !(r.cls == some "thead"))) :=
  ⟨foldl_skip_thead (fun rows r => upsert rows r.thText (Box.rowData r)) body [],
   foldl_skip_thead (fun rows r => rows ++ [Player.rowData r]) body []⟩

/-- C9 counterexample: the schedule extraction keeps the class-`thead`
sub-heading row of `theadRowPage` in its output. -/
theorem schedule_thead_row_counterexample :
    (∃ t ∈ theadRowPage.tables, ∃ r ∈ t.body,
        r.cls = some "thead" ∧ r.thText = "Subheading") ∧
    Schedule.processWebpage theadRowPage = Except.ok [theadSubRow, theadNormRow] ∧
    theadSubRow.date = Val.str "Subheading" :=
  ⟨by decide, rfl, rfl⟩

/-! ## Claim C10 -/

theorem alookup_box_fold (p : String) :
    ∀ (body : List Tr) (acc : List (String × List (String × Val))),
      alookup (body.foldl (fun rows r =>
          if r.cls = some "thead" then rows else upsert rows r.thText (Box.rowData r)) acc) p =
        (match lastNonThead p body with
         | some r2 => some (Box.rowData r2)
         | none => alookup acc p) := by
  intro body
  induction body with
  | nil => intro acc; rfl
  | cons r rest ih =>
    intro acc
    rw [List.foldl_cons]
    by_cases hc : r.cls = some "thead"
    · rw [if_pos hc, ih]
      rcases hl : lastNonThead p rest with _ | r2 <;>
        simp [lastNonThead, hl, hc]
    · rw [if_neg hc, ih]
      rcases hl : lastNonThead p rest with _ | r2
      · simp only [lastNonThead, hl]
        by_cases hp : r.thText = p
        · subst hp
          rw [alookup_upsert_self]
          simp [hc]
        · rw [alookup_upsert_ne _ _ _ _ hp]
          simp [hc, hp]
      · simp only [lastNonThead, hl]

/-- C10 (confirmed): the box-score per-table extraction keys rows by
player name with Python-dict semantics: the stored names are duplicate
free, and the data stored under a name is that of the last non-sub-heading
body row carrying it, so of two rows with the same player name only the
later one's data survives. -/
theorem boxscore_duplicate_player_last_wins (body : List Tr) (p : String) :
    ((Box.tableRows body).map Prod.fst).Nodup ∧
    alookup (Box.tableRows body) p = (lastNonThead p body).map Box.rowData := by
  constructor
  · have aux : ∀ (trs : List Tr) (acc : List (String × List (String × Val))),
        (keysOf acc).Nodup →
        (keysOf (trs.foldl (fun rows r =>
          if r.cls = some "thead" then rows else upsert rows r.thText (Box.rowData r)) acc)).Nodup := by
      intro trs
      induction trs with
      | nil => intro acc h; exact h
      | cons r rest ih =>
        intro acc h
        rw [List.foldl_cons]
        by_cases hc : r.cls = some "thead"
        · rw [if_pos hc]; exact ih acc h
        · rw [if_neg hc]; exact ih _ (nodup_keysOf_upsert acc _ _ h)
    exact aux body [] (by simp [keysOf])
  · have h2 := alookup_box_fold p body []
    rcases hl : lastNonThead p body with _ | r2 <;> rw [hl] at h2
    · simpa [Box.tableRows, alookup] using h2
    · simpa [Box.tableRows] using h2

/-! ## Claim C5 -/

theorem findSubAux_colon (b : List Char) :
    ∀ (a : List Char) (i : Nat), ':' ∉ a →
      findSubAux (a ++ ':' :: b) [':'] i = some (i + a.length) := by
  intro a
  induction a with
  | nil =>
    intro i _
    simp [findSubAux, isPre]
  | cons c rest ih =>
    intro i hmem
    have hc : ¬ (':' = c) := fun h => hmem (h ▸ List.mem_cons_self c rest)
    have hrest : ':' ∉ rest := fun h => hmem (List.mem_cons_of_mem c h)
    simp only [List.cons_append, findSubAux, isPre, hc, if_false, Bool.false_eq_true,
      List.append_eq]
    rw [ih (i + 1) hrest]
    congr 1
    simp only [List.length_cons]
    omega

theorem pyFind_colon (a b : List Char) (h : ':' ∉ a) :
    pyFind ⟨a ++ ':' :: b⟩ ":" = (a.length : Int) := by
  have hd : (String.mk (a ++ ':' :: b)).data = a ++ ':' :: b := rfl
  have hsub : (":" : String).data = [':'] := rfl
  simp only [pyFind, hd, hsub, findSubAux_colon b a 0 h]
  simp

theorem digitsVal_head_digit {cs : List Char} {m : Nat} (h : digitsVal cs = some m) :
    ∃ c rest, cs = c :: rest ∧ c.isDigit = true := by
  cases cs with
  | nil => cases h
  | cons c rest =>
    refine ⟨c, rest, rfl, ?_⟩
    simp only [digitsVal, digitsAux] at h
    by_cases hc : c.isDigit
    · exact hc
    · rw [if_neg hc] at h; cases h

theorem pyInt_digits {cs : List Char} {m : Nat} (h : digitsVal cs = some m) :
    pyInt ⟨cs⟩ = some (m : Int) := by
  rcases digitsVal_head_digit h with ⟨c, rest, rfl, hdig⟩
  have h1 : ¬ (c = '-') := fun hcc => by rw [hcc] at hdig; cases hdig
  have h2 : ¬ (c = '+') := fun hcc => by rw [hcc] at hdig; cases hdig
  simp only [pyInt, h1, h2, if_false]
  simp [h]

theorem pyTake_append (a b : List Char) :
    pyTake ⟨a ++ b⟩ ((a.length : Int)) = ⟨a⟩ := by
  have hidx : pyIdx (String.mk (a ++ b)).data.length ((a.length : Int)) = a.length := by
    simp only [pyIdx]
    rw [if_neg (by omega)]
    have ht : ((a.length : Int)).toNat = a.length := rfl
    rw [ht]
    have hlen : (String.mk (a ++ b)).data.length = a.length + b.length := by
      simp [List.length_append]
    rw [hlen]
    omega
  refine congrArg String.mk ?_
  rw [hidx]
  exact List.take_left a b

theorem pyDrop_after_colon (a b : List Char) :
    pyDrop ⟨a ++ ':' :: b⟩ ((a.length : Int) + 1) = ⟨b⟩ := by
  have hidx : pyIdx (String.mk (a ++ ':' :: b)).data.length ((a.length : Int) + 1) =
      a.length + 1 := by
    simp only [pyIdx]
    rw [if_neg (by omega)]
    have ht : ((a.length : Int) + 1).toNat = a.length + 1 := by omega
    rw [ht]
    have hlen : (String.mk (a ++ ':' :: b)).data.length = a.length + (b.length + 1) := by
      simp [List.length_append]
    rw [hlen]
    omega
  refine congrArg String.mk ?_
  rw [hidx]
  have hsplit : a ++ ':' :: b = (a ++ [':']) ++ b := by simp
  rw [hsplit, show a.length + 1 = (a ++ [':']).length by simp]
  exact List.drop_left _ _

/-- C5 (confirmed): the minutes-played conversion maps every
`"minutes:seconds"` string (digits, a colon, digits) to the exact
rational `minutes + seconds/60`; floats are idealised as rationals, and
the three quoted examples are instances (see the witness). -/
theorem minutes_conversion_exact (a b : List Char) (m s : Nat)
    (hcolon : ':' ∉ a) (hm : digitsVal a = some m) (hs : digitsVal b = some s) :
    Box.convertMP ⟨a ++ ':' :: b⟩ = Except.ok ((m : Rat) + (s : Rat) / 60) := by
  simp only [Box.convertMP]
  rw [pyFind_colon a b hcolon]
  rw [show (a ++ ':' :: b) = a ++ (':' :: b) from rfl, pyTake_append a (':' :: b)]
  rw [pyDrop_after_colon a b]
  rw [pyInt_digits hm, pyInt_digits hs]
  simp

/-- C5 witness: the three quoted conversions, `"0:00"`, `"34:30"`,
`"48:00"`. -/
theorem minutes_conversion_exact_witness :
    Box.convertMP "0:00" = Except.ok ((0 : Rat) + (0 : Rat) / 60) ∧
    Box.convertMP "34:30" = Except.ok ((34 : Rat) + (30 : Rat) / 60) ∧
    Box.convertMP "48:00" = Except.ok ((48 : Rat) + (0 : Rat) / 60) :=
  ⟨minutes_conversion_exact ['0'] ['0', '0'] 0 0 (by decide) (by decide) (by decide),
   minutes_conversion_exact ['3', '4'] ['3', '0'] 34 30 (by decide) (by decide) (by decide),
   minutes_conversion_exact ['4', '8'] ['0', '0'] 48 0 (by decide) (by decide) (by decide)⟩

/-! ## Claim C3 -/

/-- C3 (corrected): with fewer than four tables on the page, the
fixed-position merge of `_process_webpage` fails (an `IndexError`, or an
earlier title error); with more than four tables it does *not* fail — the
first four are used and the extras are silently ignored (see the
counterexample). -/
theorem boxscore_fewer_than_four_tables_error (toDt : String → Option Nat) (page : Box.BPage)
    (h : page.tables.length < 4) :
    ∃ e, Box.processWebpage toDt page = Except.error e := by
  have hget : (page.tables.map Box.processTable).get? 3 = none := by
    rw [List.get?_eq_none]
    simp only [List.length_map]
    omega
  have h3 : Box.listIdx (page.tables.map Box.processTable) 3 =
      Except.error "IndexError: list index out of range" := by
    simp only [Box.listIdx, hget]
  rcases ht : Box.titleProcess toDt page.title with e | tpl
  · exact ⟨e, by simp [Box.processWebpage, ht]⟩
  · obtain ⟨homeTeam, awayTeam, date⟩ := tpl
    rcases h0 : Box.listIdx (page.tables.map Box.processTable) 0 with e0 | t0
    · exact ⟨e0, by simp [Box.processWebpage, ht, h0]⟩
    · rcases h1 : Box.listIdx (page.tables.map Box.processTable) 1 with e1 | t1
      · exact ⟨e1, by simp [Box.processWebpage, ht, h0, h1]⟩
      · rcases h2 : Box.listIdx (page.tables.map Box.processTable) 2 with e2 | t2
        · exact ⟨e2, by simp [Box.processWebpage, ht, h0, h1, h2]⟩
        · exact ⟨"IndexError: list index out of range",
            by simp [Box.processWebpage, ht, h0, h1, h2, h3]⟩

/-- C3 witness: a page with no tables fails. -/
theorem boxscore_fewer_than_four_tables_error_witness :
    ∃ e, Box.processWebpage boxToDt emptyBoxPage = Except.error e :=
  boxscore_fewer_than_four_tables_error boxToDt emptyBoxPage (by decide)

/-- C3 counterexample: a page with five qualifying tables parses
successfully, refuting that more than four tables cause a failure. -/
theorem boxscore_five_tables_ok_counterexample :
    fiveTablePage.tables.length = 5 ∧
    (Box.processWebpage boxToDt fiveTablePage).isOk = true :=
  ⟨rfl, rfl⟩

/-! ## Claim C4 -/

/-- C4 (corrected): the merge appends exactly the advanced columns absent
from the basic frame after the basic columns (so no basic column is
overwritten); with disjoint column sets the merged column count is the
sum; with full column overlap the merge returns the basic frame provided
the advanced frame's rows are among the basic frame's rows — without that
extra condition the outer index join adds rows (see the
counterexample). -/
theorem player_merge_advanced_columns :
    (∀ basic adv : Player.PDF,
        (Player.mergeAdvanced basic adv).cols = basic.cols ++ Player.colsToAdd adv basic) ∧
    (∀ basic adv : Player.PDF, adv.cols.Nodup → (∀ c ∈ adv.cols, c ∉ basic.cols) →
        (Player.mergeAdvanced basic adv).cols.length =
          basic.cols.length + adv.cols.length) ∧
    (∀ basic adv : Player.PDF, (∀ c ∈ adv.cols, c ∈ basic.cols) →
        (∀ r ∈ adv.idx, r ∈ basic.idx) →
        Player.dfEq (Player.mergeAdvanced basic adv) basic) := by
  refine ⟨fun basic adv => rfl, ?_, ?_⟩
  · intro basic adv hnodup hdisj
    have hfilter : adv.cols.filter (fun c => decide (c ∉ basic.cols)) = adv.cols :=
      List.filter_eq_self.mpr (fun c hc => by simp [hdisj c hc])
    simp only [Player.mergeAdvanced, Player.concatAxis1, Player.selectCols,
      Player.colsToAdd, hfilter, List.Nodup.dedup hnodup, List.length_append,
      insSort_length]
  · intro basic adv hcols hidx
    have hadd : Player.colsToAdd adv basic = [] := by
      unfold Player.colsToAdd
      rw [List.filter_eq_nil_iff.mpr (fun c hc => by simpa using hcols c hc)]
      rfl
    have hidxf : adv.idx.filter (fun r => decide (r ∉ basic.idx)) = [] :=
      List.filter_eq_nil_iff.mpr (fun r hr => by simpa using hidx r hr)
    have hI : (Player.mergeAdvanced basic adv).idx = basic.idx := by
      show basic.idx ++ adv.idx.filter (fun r => decide (r ∉ basic.idx)) = basic.idx
      rw [hidxf, List.append_nil]
    have hC : (Player.mergeAdvanced basic adv).cols = basic.cols := by
      show basic.cols ++ Player.colsToAdd adv basic = basic.cols
      rw [hadd, List.append_nil]
    refine ⟨hI, hC, ?_⟩
    intro r hr c hc
    rw [hI] at hr
    rw [hC] at hc
    simp only [Player.mergeAdvanced, Player.concatAxis1, Player.selectCols]
    rw [if_pos hc, if_pos hr]

/-- C4 witness: a disjoint merge has 2 + 2 columns, and a fully
overlapped same-index merge returns the basic frame. -/
theorem player_merge_advanced_columns_witness :
    (Player.mergeAdvanced pdfBW pdfAW).cols.length = 2 + 2 ∧
    Player.dfEq (Player.mergeAdvanced pdfBW pdfAF) pdfBW :=
  ⟨player_merge_advanced_columns.2.1 pdfBW pdfAW (by decide) (by decide),
   player_merge_advanced_columns.2.2 pdfBW pdfAF (by decide) (by decide)⟩

/-- C4 counterexample: `pdfA0`'s only column occurs in `pdfB0`, yet the
merge does not equal `pdfB0` — the advanced frame's extra game row
enters the outer index join. -/
theorem player_merge_full_overlap_counterexample :
    (∀ c ∈ pdfA0.cols, c ∈ pdfB0.cols) ∧
    ¬ Player.dfEq (Player.mergeAdvanced pdfB0 pdfA0) pdfB0 := by
  constructor
  · intro c hc
    simpa [pdfA0, pdfB0] using hc
  · intro hdf
    exact absurd hdf.1 (by decide)

/-! ## Claim C6 -/

theorem cellOf_map_ite (d : List (String × Val)) (P : String → Bool) (F : Val → Val)
    (c : String) (hP : P c = false) :
    cellOf (d.map (fun kv => if P kv.1 then (kv.1, F kv.2) else kv)) c = cellOf d c := by
  induction d with
  | nil => rfl
  | cons kv rest ih =>
    obtain ⟨k, v⟩ := kv
    simp only [List.map_cons]
    by_cases hPk : P k
    · rw [if_pos hPk]
      by_cases hk : k = c
      · subst hk
        rw [hP] at hPk
        cases hPk
      · simp only [cellOf, alookup, hk, if_false]
        exact ih
    · rw [if_neg hPk]
      by_cases hk : k = c
      · subst hk
        simp [cellOf, alookup]
      · simp only [cellOf, alookup, hk, if_false]
        exact ih

theorem seqMP_col (c : String) (hc : c ≠ "MP") :
    ∀ l l2 : List (String × List (String × Val)),
      Box.seqMP l = Except.ok l2 →
      l2.map (fun pd => cellOf pd.2 c) = l.map (fun pd => cellOf pd.2 c) := by
  intro l
  induction l with
  | nil =>
    intro l2 h
    simp only [Box.seqMP, Except.ok.injEq] at h
    subst h
    rfl
  | cons pd rest ih =>
    obtain ⟨p, d⟩ := pd
    intro l2 h
    simp only [Box.seqMP] at h
    split at h
    · split at h
      · rw [Except.ok.injEq] at h
        subst h
        rename_i s hs q rs hconv hrest
        simp only [List.map_cons]
        congr 1
        · show cellOf (upsert d "MP" (Val.num q)) c = cellOf d c
          simp only [cellOf]
          rw [alookup_upsert_ne d "MP" c (Val.num q) (fun hmp => hc hmp.symm)]
        · exact ih rs hrest
      · cases h
      · cases h
    · cases h

/-- C6 (corrected): numeric coercion through
`pd.to_numeric(errors="ignore")` is column-wise best-effort — a column
that does not parse cleanly is left unchanged as text, and the coercion
itself raises nothing (`toNumericCol` is total); this also holds for
every non-`MP` column through the box-score `_type_convert`.  The `MP`
column, however, is excluded from that coercion and converted by force,
which raises on malformed content (see the counterexample). -/
theorem numeric_coercion_best_effort :
    (∀ col : List Val, colParses col = false → toNumericCol col = col) ∧
    (∀ df out : Box.TDF, Box.typeConvert df = Except.ok out →
      ∀ c ∈ df.cols, c ≠ "MP" → colParses (Box.getCol df c) = false →
        Box.getCol out c = Box.getCol df c) := by
  constructor
  · intro col h
    simp [toNumericCol, h]
  · intro df out h c _ hcne hcparse
    simp only [Box.typeConvert] at h
    split at h
    · split at h
      · rw [Except.ok.injEq] at h
        subst h
        rename_i rows2 hseq
        show rows2.map (fun pd => cellOf pd.2 c) = Box.getCol df c
        rw [seqMP_col c hcne _ rows2 hseq]
        simp only [Box.getCol, List.map_map]
        refine List.map_congr_left ?_
        intro pd _
        simp only [Function.comp_apply]
        exact cellOf_map_ite pd.2 (fun k => k != "MP" && colParses (Box.getCol df k))
          toNumVal c
          (by show (c != "MP" && colParses (Box.getCol df c)) = false
              rw [hcparse, Bool.and_false])
      · cases h
    · cases h

/-- C6 witness: a textual column is untouched by `toNumericCol`, and the
`Team` column of `dfCoerceW` survives `_type_convert` unchanged. -/
theorem numeric_coercion_best_effort_witness :
    toNumericCol [Val.str "AWY"] = [Val.str "AWY"] ∧
    Box.getCol dfCoerceWOut "Team" = Box.getCol dfCoerceW "Team" :=
  ⟨numeric_coercion_best_effort.1 [Val.str "AWY"] (by decide),
   numeric_coercion_best_effort.2 dfCoerceW dfCoerceWOut (by with_unfolding_all rfl) "Team"
     (by decide) (by decide) (by decide)⟩

/-- C6 counterexample: `_type_convert` raises on a frame whose `MP` cell
is not in `minutes:seconds` form, refuting that coercion never raises
regardless of cell contents. -/
theorem minutes_force_convert_error_counterexample :
    Box.typeConvert dfMpBad = Except.error "ValueError: invalid literal for int" := rfl

/-! ## Claim C8 -/

/-- C8 (confirmed): on the four-table mock page with rosters of three per
side and one did-not-play player per side, the output frame has
`(3 - 1) + (3 - 1)` rows, carries no `reason` column, and the final score
per team is the sum of that team's players' points (`10 + 20` away,
`5 + 7` home). -/
theorem boxscore_mock_page_rows_and_score :
    (Box.boxScore boxToDt mockBoxPage).map (fun res => res.df.rows.length) =
      Except.ok ((3 - 1) + (3 - 1)) ∧
    (Box.boxScore boxToDt mockBoxPage).map (fun res => res.df.cols.contains "reason") =
      Except.ok false ∧
    (Box.boxScore boxToDt mockBoxPage).map (fun res => res.final_score) =
      Except.ok [("AWY", (10 : Rat) + 20), ("HOM", (5 : Rat) + 7)] :=
  ⟨rfl, rfl, by with_unfolding_all rfl⟩

end BasketballRef
